import Mathlib

/-!
Verification development for the `@digitalbazaar/ezcap-express` middleware
library.  The JavaScript sources under `lib/` (`helpers.js`, `authorize.js`,
`revoke.js`) are shallowly embedded below: JS strings are modelled as Lean
`String`s (and, for the percent-encoding analysis, as their byte sequences,
i.e. `List Nat` with entries below 256); JS exceptions are modelled with
`Except`; the Express middleware chain is modelled as a function from a
request to an outcome that either proceeds with updated request state or
fails with an error and an HTTP status.  External collaborators (the
`jsonld-signatures` verifier, the cryptographic suites, the HTTP-signature
parser and the digest verifier) are parameters/oracles of the embedded
functions, mirroring the library's dependency-injection style.
-/

namespace EzcapExpress

/-! ## JavaScript value and error model -/

/-- Subset of JavaScript runtime values needed to model the dynamically
typed expected-values object read by `_checkExpectedValues` in
`lib/helpers.js` (arrays are restricted to arrays of strings, which covers
every array the library ever stores in those fields). -/
inductive JsVal where
  | undef
  | str (s : String)
  | num (n : Int)
  | boolean (b : Bool)
  | arr (xs : List String)
deriving DecidableEq

/-- Returns true exactly when `typeof v === 'string'` holds in JS. -/
def JsVal.isString : JsVal → Bool
  | .str _ => true
  | _ => false

/-- Model of a JS `Error` object as created by the library: a `name`, a
`message`, an optional `httpStatusCode` property and an optional `cause`
(the cause is flattened to one level, which is all the library ever
inspects). -/
structure JsErrorBase where
  name : String
  message : String
  httpStatusCode : Option Nat
deriving DecidableEq

/-- Model of a JS `Error` with an optional (one-level) `cause` chain. -/
structure JsError where
  name : String
  message : String
  httpStatusCode : Option Nat
  cause : Option JsErrorBase
deriving DecidableEq

/-- Forgets the cause of an error, used when an error is recorded as the
`cause` of a wrapping error. -/
def JsError.toBase (e : JsError) : JsErrorBase :=
  { name := e.name, message := e.message, httpStatusCode := e.httpStatusCode }

/-- Embeds `handleError` from `lib/helpers.js` (lines 138-150): the HTTP
status sent with an error is the error's own `httpStatusCode` when present,
and 500 otherwise (the response status starts below 400). -/
def handleErrorStatus (e : JsError) : Nat :=
  e.httpStatusCode.getD 500

/-! ## Percent-encoding (byte-level model of `encodeURIComponent` /
`decodeURIComponent`)

JavaScript's `encodeURIComponent` leaves the unreserved characters
`A-Z a-z 0-9 - _ . ! ~ * ' ( )` unchanged and replaces every other byte of
the string's UTF-8 encoding by `%HH` with uppercase hexadecimal digits;
`decodeURIComponent` inverts this.  Those functions are modelled here on
the UTF-8 byte sequences (`List Nat`, entries `< 256`). -/

/-- Unreserved bytes of `encodeURIComponent`: ASCII letters, digits and
`- _ . ! ~ * ' ( )`. -/
def isUnreservedByte (b : Nat) : Bool :=
  (65 ≤ b && b ≤ 90) || (97 ≤ b && b ≤ 122) || (48 ≤ b && b ≤ 57) ||
  b == 45 || b == 95 || b == 46 || b == 33 || b == 126 || b == 42 ||
  b == 39 || b == 40 || b == 41

/-- Uppercase hexadecimal digit (as a byte) for a value below 16. -/
def hexDigitByte (n : Nat) : Nat :=
  if n < 10 then 48 + n else 55 + n

/-- Percent-encoding of one byte: unreserved bytes stand for themselves,
all others become `%HH` (`%` is byte 37). -/
def encodeByte (b : Nat) : List Nat :=
  if isUnreservedByte b then [b] else [37, hexDigitByte (b / 16), hexDigitByte (b % 16)]

/-- Byte-level model of `encodeURIComponent`. -/
def encodeURIComponentBytes (s : List Nat) : List Nat :=
  s.flatMap encodeByte

/-- Value of a (case-insensitive) hexadecimal digit byte. -/
def hexVal (c : Nat) : Option Nat :=
  if 48 ≤ c ∧ c ≤ 57 then some (c - 48)
  else if 65 ≤ c ∧ c ≤ 70 then some (c - 55)
  else if 97 ≤ c ∧ c ≤ 102 then some (c - 87)
  else none

/-- Byte-level model of `decodeURIComponent`: each `%HH` triple becomes the
byte `HH`; a malformed escape yields `none` (JS throws `URIError`). -/
def decodeURIComponentBytes : List Nat → Option (List Nat)
  | [] => some []
  | c :: rest =>
    if c = 37 then
      match rest with
      | h :: l :: rest2 => do
          let hv ← hexVal h
          let lv ← hexVal l
          let r ← decodeURIComponentBytes rest2
          pure ((16 * hv + lv) :: r)
      | _ => none
    else (decodeURIComponentBytes rest).map (c :: ·)

theorem decodeURIComponentBytes_cons_of_ne (c : Nat) (l : List Nat) (hc : c ≠ 37) :
    decodeURIComponentBytes (c :: l) = (decodeURIComponentBytes l).map (c :: ·) := by
  cases l with
  | nil => simp [decodeURIComponentBytes, hc]
  | cons x t =>
    cases t with
    | nil => simp [decodeURIComponentBytes, hc]
    | cons y t2 => simp [decodeURIComponentBytes, hc]

theorem decodeURIComponentBytes_escape (h l : Nat) (rest : List Nat) :
    decodeURIComponentBytes (37 :: h :: l :: rest) =
      (hexVal h).bind (fun hv => (hexVal l).bind (fun lv =>
        (decodeURIComponentBytes rest).bind (fun r => some ((16 * hv + lv) :: r)))) := by
  rfl

theorem hexVal_hexDigitByte (n : Nat) (h : n < 16) : hexVal (hexDigitByte n) = some n := by
  unfold hexVal hexDigitByte
  interval_cases n <;> simp

theorem isUnreservedByte_ne_37 (b : Nat) (h : isUnreservedByte b = true) : b ≠ 37 := by
  intro hb
  subst hb
  simp [isUnreservedByte] at h

/-- Percent-decoding is a left inverse of percent-encoding on byte strings
(the exact-round-trip property required of the `urn:zcap:root:` scheme). -/
theorem decode_encodeURIComponentBytes (s : List Nat) (h : ∀ b ∈ s, b < 256) :
    decodeURIComponentBytes (encodeURIComponentBytes s) = some s := by
  induction s with
  | nil => rfl
  | cons b rest ih =>
    have hb : b < 256 := h b (List.mem_cons_self b rest)
    have hrest : ∀ x ∈ rest, x < 256 := fun x hx => h x (List.mem_cons_of_mem b hx)
    have ihr := ih hrest
    show decodeURIComponentBytes (encodeByte b ++ encodeURIComponentBytes rest) = some (b :: rest)
    by_cases hu : isUnreservedByte b = true
    · have hb37 : b ≠ 37 := isUnreservedByte_ne_37 b hu
      simp only [encodeByte, hu, if_pos, List.cons_append, List.nil_append]
      rw [decodeURIComponentBytes_cons_of_ne b _ hb37, ihr]
      rfl
    · simp only [encodeByte, hu, if_neg, Bool.false_eq_true, not_false_iff,
        List.cons_append, List.nil_append]
      rw [decodeURIComponentBytes_escape]
      rw [hexVal_hexDigitByte (b / 16) (by omega), hexVal_hexDigitByte (b % 16) (by omega)]
      simp [ihr, Nat.div_add_mod]

/-! ## String-level helpers

The pipeline itself is modelled over Lean `String`s.  JS string primitives
used by the library are given explicit models so that proofs can reason
about them; `encodeURIComponent`/`decodeURIComponent` reuse the byte-level
functions above via the code points of the string (exact for the ASCII
strings the pipeline handles). -/

/-- Code points of a string. -/
def charsToNats (s : String) : List Nat := s.data.map Char.toNat

/-- String from a list of code points (used only on valid code points). -/
def natsToChars (l : List Nat) : String := String.mk (l.map Char.ofNat)

/-- String-level model of `encodeURIComponent`. -/
def encodeURIComponent (s : String) : String :=
  natsToChars (encodeURIComponentBytes (charsToNats s))

/-- String-level model of `decodeURIComponent` (`none` models the JS
`URIError` on a malformed escape). -/
def decodeURIComponentStr (s : String) : Option String :=
  (decodeURIComponentBytes (charsToNats s)).map natsToChars

/-- Model of JS `String.prototype.includes` with a one-character needle. -/
def strContainsChar (s : String) (c : Char) : Bool := s.data.contains c

/-- Model of JS `String.prototype.startsWith`. -/
def strStartsWith (s p : String) : Bool := p.data.isPrefixOf s.data

/-- Model of JS `String.prototype.substr(n)` / dropping a known ASCII
prefix of length `n`. -/
def strDrop (s : String) (n : Nat) : String := String.mk (s.data.drop n)

/-- First index at which `sub` occurs in `l` (model of JS
`String.prototype.indexOf`, returning `none` for -1). -/
def findSubstrIdx (l sub : List Char) : Option Nat :=
  if sub.isPrefixOf l then some 0
  else
    match l with
    | [] => none
    | _ :: t => (findSubstrIdx t sub).map (· + 1)

/-- Model of JS `String.prototype.includes` with a string needle. -/
def jsIncludesSubstr (s sub : String) : Bool := (findSubstrIdx s.data sub.data).isSome

/-- JS truthiness of an optional string (absent and empty are falsy). -/
def jsTruthyOptStr : Option String → Bool
  | none => false
  | some s => !s.isEmpty

/-- The `urn:zcap:root:` identifier scheme of dynamically generated root
capabilities; re-exported by `lib/helpers.js` from the `@digitalbazaar/zcap`
constants under the source name `ZCAP_ROOT_PREFIX`. -/
def ZCAP_ROOT_URN : String := "urn:zcap:root:"

/-! ## Data model: capabilities, requests, parsed signatures -/

/-- Controller of a capability: the library treats a single identifier and
an array of identifiers through one code path
(`_getCapabilityControllers`). -/
inductive ControllerVal where
  | one (s : String)
  | many (xs : List String)
deriving DecidableEq

/-- Dereferenced capability document, with the fields the library reads.
`chainRootId` is the id of the root capability referenced at the head of
the proof `capabilityChain` of a delegated zcap (`none` when the document
carries no delegation proof). -/
structure Capability where
  id : String
  invocationTarget : String
  controller : ControllerVal
  chainRootId : Option String
deriving DecidableEq

/-- Parameters parsed out of the HTTP-Signature `authorization` header by
the external `http-signature-header` parser; the library only ever reads
`keyId` from them. -/
structure SigParams where
  keyId : String
deriving DecidableEq

/-- Express request, restricted to the headers and fields the library
consumes.  `body` is the parsed request body (for this library always a
capability document when present); an absent body models JS `undefined`. -/
structure Request where
  method : String
  originalUrl : String
  authorization : Option String
  digest : Option String
  contentLength : Option String
  transferEncoding : Option String
  contentType : Option String
  body : Option Capability
  revocationIdParam : Option String
deriving DecidableEq

/-- Outcome of one middleware: either proceed (`next()` was called) with
updated request state, or fail with an error and the HTTP status sent. -/
inductive StageResult (α : Type) where
  | proceed (a : α)
  | fail (error : JsError) (status : Nat)
deriving DecidableEq

/-- Embeds `hasBody` (lib/helpers.js lines 184-190): a request has a body
when `req.body` is truthy AND a `transfer-encoding` or `content-length`
header is set. -/
def hasBody (req : Request) : Bool :=
  req.body.isSome && (req.transferEncoding.isSome || req.contentLength.isSome)

/-! ## Expected values (`lib/helpers.js`) -/

/-- The four properties destructured from the object returned by the
host-supplied `getExpectedValues` function, each an arbitrary JS value. -/
structure ExpectedJs where
  action : JsVal
  host : JsVal
  rootInvocationTarget : JsVal
  target : JsVal
deriving DecidableEq

/-- Return value of the host-supplied `getExpectedValues`: either not an
object at all, or an object carrying the four checked properties. -/
inductive GevReturn where
  | nonObject (v : JsVal)
  | obj (e : ExpectedJs)
deriving DecidableEq

/-- JS evaluation of `v.includes(':')`: defined for strings (substring
test) and arrays (element test); any other receiver raises a `TypeError`
because `includes` is not a function on it. -/
def jsIncludesColon : JsVal → Except JsError Bool
  | .str s => .ok (strContainsChar s ':')
  | .arr xs => .ok (xs.contains ":")
  | _ =>
    .error { name := "TypeError",
             message := "target.includes is not a function",
             httpStatusCode := none, cause := none }

/-- Embeds `_checkExpectedRootInvocationTarget` (lib/helpers.js 225-236):
a string containing a colon, or a non-empty array of strings each
containing a colon. -/
def _checkExpectedRootInvocationTarget : JsVal → Bool
  | .str s => strContainsChar s ':'
  | .arr xs => decide (xs.length > 0) && xs.all (fun s => strContainsChar s ':')
  | _ => false

/-- JS string coercion, used only where a value is already known to be a
string (kept total for the embedding). -/
def jsValAsString : JsVal → String
  | .str s => s
  | .undef => "undefined"
  | .num n => toString n
  | .boolean b => if b then "true" else "false"
  | .arr xs => String.intercalate "," xs

/-- Embeds `_checkExpectedValues` (lib/helpers.js 192-223), including the
exact short-circuit structure of the `target` check on lines 217-222
(`target !== undefined && !(typeof target === 'string') &&
target.includes(':')`).  On success the checked object is returned. -/
def _checkExpectedValues : GevReturn → Except JsError ExpectedJs
  | .nonObject _ =>
    .error { name := "TypeError",
             message := "\"getExpectedValues\" must return an object.",
             httpStatusCode := none, cause := none }
  | .obj e => do
    if !(e.action == JsVal.undef || e.action.isString) then
      throw { name := "TypeError", message := "Expected \"action\" must be a string.",
              httpStatusCode := none, cause := none }
    if !e.host.isString then
      throw { name := "TypeError", message := "Expected \"host\" must be a string.",
              httpStatusCode := none, cause := none }
    if !(_checkExpectedRootInvocationTarget e.rootInvocationTarget) then
      throw { name := "Error",
              message := "Expected \"rootInvocationTarget\" must be a string or an array of strings, each of which expresses an absolute URI.",
              httpStatusCode := none, cause := none }
    if e.target != JsVal.undef then
      if !e.target.isString then
        let b ← jsIncludesColon e.target
        if b then
          throw { name := "Error",
                  message := "Expected \"target\" must be a string that expresses an absolute URI.",
                  httpStatusCode := none, cause := none }
    pure e

/-- Embeds `DEFAULT_ACTION_FOR_METHOD` (lib/helpers.js 16-27), including
the duplicated `PATCH` entry of the source. -/
def DEFAULT_ACTION_FOR_METHOD : List (String × String) :=
  [("GET", "read"), ("HEAD", "read"), ("OPTIONS", "read"),
   ("POST", "write"), ("PUT", "write"), ("PATCH", "write"),
   ("DELETE", "write"), ("CONNECT", "write"), ("TRACE", "write"),
   ("PATCH", "write")]

/-- JS `Map.prototype.get` over an insertion list (a later entry for the
same key overrides an earlier one, exactly as `Map` construction does). -/
def mapGet (m : List (String × String)) (k : String) : Option String :=
  m.foldl (fun acc p => if p.1 == k then some p.2 else acc) none

/-- The expected-root-capability value saved on the request: a single id or
a list of ids, matching the string-or-array shape of the source. -/
inductive RootCapIds where
  | one (s : String)
  | many (xs : List String)
deriving DecidableEq

/-- State the expectation middleware saves as `req.ezcap`. -/
structure Ezcap where
  keyId : String
  expectedAction : String
  expectedHost : String
  expectedRootCapability : RootCapIds
  expectedTarget : JsVal
deriving DecidableEq

/-- Error raised when the digest header is missing though a body is
present (lib/helpers.js 56-62). -/
def missingDigestJsError : JsError :=
  { name := "DataError",
    message := "A \"digest\" header must be present when an HTTP body is present.",
    httpStatusCode := some 400, cause := none }

/-- Error raised when the `authorization` header is missing or fails to
parse (lib/helpers.js 45-51); the underlying parser exception is abstract
and elided from the modelled cause. -/
def invalidAuthorizationJsError : JsError :=
  { name := "DataError", message := "Missing or invalid \"authorization\" header.",
    httpStatusCode := some 400, cause := none }

/-- Error raised when the digest header does not match the body
(lib/helpers.js 65-71). -/
def digestMismatchJsError : JsError :=
  { name := "DataError",
    message := "The \"digest\" header value does not match digest of body.",
    httpStatusCode := some 400, cause := none }

/-- Error raised when the HTTP method has no default capability action
(lib/helpers.js 105-111). -/
def unsupportedMethodJsError (m : String) : JsError :=
  { name := "NotSupportedError",
    message := s!"The HTTP method {m} has no expected capability action.",
    httpStatusCode := some 400, cause := none }

/-- Embeds `createExpectationMiddleware` (lib/helpers.js 30-136).  The
external signature parser and digest verifier are parameters; the
host-supplied `getExpectedValues` may throw.  On success it yields the
saved `req.ezcap` values and the (possibly cleared) request body. -/
def createExpectationMiddleware
    (parseSignatureHeader : Option String → Option SigParams)
    (verifyHeaderValue : Capability → String → Bool)
    (getExpectedValues : Request → Except JsError GevReturn)
    (req : Request) : StageResult (Ezcap × Option Capability) :=
  match parseSignatureHeader req.authorization with
  | none => .fail invalidAuthorizationJsError (handleErrorStatus invalidAuthorizationJsError)
  | some params =>
    let bodyStep : Except JsError (Option Capability) :=
      if hasBody req then
        match req.digest, req.body with
        | none, _ => .error missingDigestJsError
        | some d, some b =>
          if verifyHeaderValue b d then .ok (some b) else .error digestMismatchJsError
        | some _, none => .ok none -- unreachable: `hasBody` requires a body
      else
        .ok none -- body cleared: prevents an unhandled `req.body` being used
    match bodyStep with
    | .error e => .fail e (handleErrorStatus e)
    | .ok newBody =>
      match (getExpectedValues req).bind _checkExpectedValues with
      | .error e => .fail e (handleErrorStatus e)
      | .ok e =>
        let host := jsValAsString e.host
        -- default expected target is always the full request URL
        let target : JsVal :=
          match e.target with
          | .undef => .str ("https://" ++ host ++ req.originalUrl)
          | t => t
        -- get default expected action
        let actionStep : Except JsError String :=
          match e.action with
          | .undef =>
            match mapGet DEFAULT_ACTION_FOR_METHOD req.method with
            | some a => .ok a
            | none => .error (unsupportedMethodJsError req.method)
          | a => .ok (jsValAsString a)
        match actionStep with
        | .error e2 => .fail e2 (handleErrorStatus e2)
        | .ok action =>
          -- produce expected root capability from expected root invocation target
          let expectedRootCapability : RootCapIds :=
            match e.rootInvocationTarget with
            | .arr ts => .many (ts.map (fun t => ZCAP_ROOT_URN ++ encodeURIComponent t))
            | v => .one (ZCAP_ROOT_URN ++ encodeURIComponent (jsValAsString v))
          .proceed ({ keyId := params.keyId, expectedAction := action,
                      expectedHost := host,
                      expectedRootCapability := expectedRootCapability,
                      expectedTarget := target }, newBody)

/-! ## Root capability synthesis

`getRootCapability` (lib/helpers.js 171-182) percent-decodes the suffix of
a `urn:zcap:root:` identifier, asks the host for the controller and
synthesizes the root capability document via `createRootCapability` of the
external `@digitalbazaar/zcap` package.  The analysis of the
encode/decode round trip is carried out on the byte level (exact for all
strings); the pipeline uses the string-level variant below. -/

/-- UTF-8 bytes of `urn:zcap:root:` (pure ASCII). -/
def zcapRootUrnBytes : List Nat := charsToNats ZCAP_ROOT_URN

/-- Byte-level root capability document. -/
structure RootCapabilityBytes where
  id : List Nat
  invocationTarget : List Nat
  controller : ControllerVal
deriving DecidableEq

/-- Modelled from the spec: `createRootCapability` of the external
`@digitalbazaar/zcap` package (spec section 4.4) synthesizes a root
capability document whose id is `urn:zcap:root:` plus the percent-encoded
invocation target, with the given invocation target and controller (the
JSON-LD context of the document is elided). -/
def createRootCapabilityBytes (controller : ControllerVal)
    (invocationTarget : List Nat) : RootCapabilityBytes :=
  { id := zcapRootUrnBytes ++ encodeURIComponentBytes invocationTarget,
    invocationTarget := invocationTarget, controller := controller }

/-- Byte-level embedding of `getRootCapability` (lib/helpers.js 171-182):
drop the `urn:zcap:root:` lead, percent-decode the rest into the root
invocation target, obtain the controller from the host `getRootController`
(given the full id and the decoded target) and synthesize the document. -/
def getRootCapabilityBytes (getRootController : List Nat → List Nat → ControllerVal)
    (rootCapabilityId : List Nat) : Option RootCapabilityBytes :=
  (decodeURIComponentBytes (rootCapabilityId.drop zcapRootUrnBytes.length)).map
    (fun rootInvocationTarget =>
      createRootCapabilityBytes (getRootController rootCapabilityId rootInvocationTarget)
        rootInvocationTarget)

/-- The expected root capability id the expectation middleware computes for
one root invocation target (lib/helpers.js 114-123), on the byte level. -/
def expectedRootCapabilityIdBytes (t : List Nat) : List Nat :=
  zcapRootUrnBytes ++ encodeURIComponentBytes t

/-- String-level `createRootCapability` of the external
`@digitalbazaar/zcap` package (same shape as the byte-level model); the
synthesized root has no delegation chain of its own. -/
def createRootCapability (controller : ControllerVal) (invocationTarget : String) : Capability :=
  { id := ZCAP_ROOT_URN ++ encodeURIComponent invocationTarget,
    invocationTarget := invocationTarget, controller := controller,
    chainRootId := none }

/-- Error raised by JS `decodeURIComponent` on a malformed escape. -/
def uriErrorJs : JsError :=
  { name := "URIError", message := "URI malformed", httpStatusCode := none, cause := none }

/-- String-level embedding of `getRootCapability` (lib/helpers.js
171-182); the host `getRootController` receives the root capability id and
the decoded root invocation target and may throw. -/
def getRootCapabilityStr
    (getRootController : String → String → Except JsError ControllerVal)
    (rootCapabilityId : String) : Except JsError Capability := do
  match decodeURIComponentStr (strDrop rootCapabilityId ZCAP_ROOT_URN.length) with
  | none => throw uriErrorJs
  | some rootInvocationTarget => do
    let controller ← getRootController rootCapabilityId rootInvocationTarget
    pure (createRootCapability controller rootInvocationTarget)

/-- Embeds `createRootCapabilityLoader` (lib/helpers.js 152-169): URLs of
the `urn:zcap:root:` scheme are served by synthesizing the root capability;
every other URL goes to the wrapped host document loader. -/
def createRootCapabilityLoader
    (documentLoader : String → Except JsError Capability)
    (getRootController : String → String → Except JsError ControllerVal)
    (url : String) : Except JsError Capability :=
  if strStartsWith url ZCAP_ROOT_URN then getRootCapabilityStr getRootController url
  else documentLoader url

/-! ## Revocation pipeline (`lib/revoke.js`) -/

/-- Embeds `_parseServiceObjectId` (lib/revoke.js 330-335):
`https://<expectedHost><path of the request URL before "/revocations/">`
(when `/revocations/` does not occur, JS `substring(0, -1)` yields the
empty path). -/
def _parseServiceObjectId (expectedHost : String) (req : Request) : String :=
  match findSubstrIdx req.originalUrl.data "/revocations/".data with
  | some idx => "https://" ++ expectedHost ++ String.mk (req.originalUrl.data.take idx)
  | none => "https://" ++ expectedHost

/-- The `revocationId` route parameter as the JS code observes it
(`undefined` stringifies to "undefined" inside `encodeURIComponent`). -/
def revocationIdOf (req : Request) : String :=
  match req.revocationIdParam with
  | some r => r
  | none => "undefined"

/-- Embeds the synthesized `getExpectedValues` of `authorizeZcapRevocation`
(lib/revoke.js 120-130): host and the two acceptable root invocation
targets; no `action` and no `target` property is set on the returned
object. -/
def getExpectedValuesRevoke (expectedHost : String) (req : Request) : ExpectedJs :=
  let serviceObjectId := _parseServiceObjectId expectedHost req
  { action := .undef, host := .str expectedHost,
    rootInvocationTarget := .arr
      [serviceObjectId,
       serviceObjectId ++ "/revocations/" ++ encodeURIComponent (revocationIdOf req)],
    target := .undef }

/-- Revocation context published as `req.zcapRevocation`
(lib/revoke.js 222-223). -/
structure RevocationCtx where
  delegator : String
  capabilityChain : List Capability
  chainControllers : List String
deriving DecidableEq

/-- Embeds `_wrapGetRootController` (lib/revoke.js 263-309): for the
zcap-specific revocation root target the controllers collected from the
to-be-revoked chain are returned (reading `req.zcapRevocation`, which
raises a `TypeError` when that middleware has not run yet); any other root
target goes to the host `getRootController`. -/
def _wrapGetRootController (expectedHost : String)
    (getRootController : Request → String → String → Except JsError ControllerVal)
    (zcapRevocation : Option RevocationCtx) (req : Request)
    (rootCapabilityId rootInvocationTarget : String) : Except JsError ControllerVal :=
  let serviceObjectId := _parseServiceObjectId expectedHost req
  let zcapSpecificRootTarget :=
    serviceObjectId ++ "/revocations/" ++ encodeURIComponent (revocationIdOf req)
  if rootInvocationTarget ≠ zcapSpecificRootTarget then
    getRootController req rootCapabilityId rootInvocationTarget
  else
    match zcapRevocation with
    | some ctx => .ok (.many ctx.chainControllers)
    | none =>
      .error { name := "TypeError",
               message := "cannot read chainControllers of undefined",
               httpStatusCode := none, cause := none }

/-- The error `getRevocationRootController` raises for a chain rooted in an
unrelated service object (lib/revoke.js 140-145); carries
`httpStatusCode` 403.  The message follows the source up to an elided
apostrophe. -/
def unrelatedServiceObjectJsError (serviceObjectId : String) : JsError :=
  { name := "NotAllowedError",
    message := s!"The root capability from the revocation delegation chain must have an invocation target that starts with \"{serviceObjectId}\".",
    httpStatusCode := some 403, cause := none }

/-- Embeds `getRevocationRootController` (lib/revoke.js 132-148): unless
the root invocation target equals the service object id or extends it as a
path, throw; otherwise defer to the (wrapped) `getRootController`. -/
def getRevocationRootController (expectedHost : String)
    (getRootController : Request → String → String → Except JsError ControllerVal)
    (zcapRevocation : Option RevocationCtx) (req : Request)
    (rootCapabilityId rootInvocationTarget : String) : Except JsError ControllerVal :=
  let serviceObjectId := _parseServiceObjectId expectedHost req
  if rootInvocationTarget = serviceObjectId ∨
      strStartsWith rootInvocationTarget (serviceObjectId ++ "/") then
    _wrapGetRootController expectedHost getRootController zcapRevocation req
      rootCapabilityId rootInvocationTarget
  else
    .error (unrelatedServiceObjectJsError serviceObjectId)

/-- Embeds `_getCapabilityControllers` (lib/revoke.js 325-328). -/
def _getCapabilityControllers (capability : Capability) : List String :=
  match capability.controller with
  | .many xs => xs
  | .one s => [s]

/-- Embeds the accumulation loop of `_captureChainControllers`
(lib/revoke.js 311-323): every controller of every capability of the chain
is pushed, in order, onto one list. -/
def capturedChainControllers (capabilityChain : List Capability) : List String :=
  capabilityChain.foldl (fun acc c => acc ++ _getCapabilityControllers c) []

/-- Host inspection hook result (`{valid, error}`). -/
structure InspectResult where
  valid : Bool
  error : Option JsError
deriving DecidableEq

/-- Outcomes of the external cryptographic machinery during one delegation
verification: whether all delegation proofs check out, the dereferenced
capabilities strictly between the root and the submitted one, and the
delegator reported for the submitted capability. -/
structure DelegationOracles where
  cryptoOk : Bool
  derefParents : List Capability
  delegator : String
deriving DecidableEq

/-- Result shape of `jsigs.verify`. -/
structure VerifyResult where
  verified : Bool
  error : Option JsError
  delegator : Option String
deriving DecidableEq

/-- Arguments the library passes to the `CapabilityDelegation` proof
purpose of the external `@digitalbazaar/zcap` package
(lib/revoke.js 243-254). -/
structure CapabilityDelegationPurposeArgs where
  allowTargetAttenuation : Bool
  expectedRootCapability : RootCapIds
deriving DecidableEq

/-- Generic verification error reported when no more specific error is
available. -/
def notVerifiedJsError (m : String) : JsError :=
  { name := "VerificationError", message := m, httpStatusCode := none, cause := none }

/-- Does the chain root id belong to the expected root capability ids? -/
def rootIdExpected (ids : RootCapIds) (rootId : String) : Bool :=
  match ids with
  | .one s => rootId == s
  | .many xs => xs.contains rootId

/-- Modelled from the spec: `jsigs.verify` with the `CapabilityDelegation`
purpose (external `jsonld-signatures` and `@digitalbazaar/zcap` packages;
spec sections 4.5 steps 3-4 and 4.6).  The chain root is resolved through
the supplied document loader; the root id must be among the expected root
capability ids; cryptographic proof checking is deferred to the oracles;
the inspection hook runs on the dereferenced chain (root first, the
submitted capability last).  Any error raised inside the verification,
including one from the document loader, is captured and reported as
`{verified: false, error}`; the chain handed to the inspection hook is
returned alongside so the caller can model the capture hook. -/
def jsigsVerifyDelegation
    (loadDocument : String → Except JsError Capability)
    (purpose : CapabilityDelegationPurposeArgs)
    (oracles : DelegationOracles)
    (inspect : List Capability → InspectResult)
    (capability : Capability) : VerifyResult × Option (List Capability) :=
  match capability.chainRootId with
  | none =>
    ({ verified := false, error := some (notVerifiedJsError "no delegation proof"),
       delegator := none }, none)
  | some rootId =>
    match loadDocument rootId with
    | .error e => ({ verified := false, error := some e, delegator := none }, none)
    | .ok rootCap =>
      if !(rootIdExpected purpose.expectedRootCapability rootId) then
        ({ verified := false,
           error := some (notVerifiedJsError "root capability not expected"),
           delegator := none }, none)
      else if !oracles.cryptoOk then
        ({ verified := false,
           error := some (notVerifiedJsError "invalid delegation proof"),
           delegator := none }, none)
      else
        let chain := rootCap :: oracles.derefParents ++ [capability]
        let ir := inspect chain
        if ir.valid then
          ({ verified := true, error := none, delegator := some oracles.delegator },
           some chain)
        else
          ({ verified := false,
             error := some ((ir.error).getD (notVerifiedJsError "chain inspection failed")),
             delegator := none }, some chain)

/-- The `CapabilityDelegation` purpose arguments `_verifyDelegation`
constructs (lib/revoke.js 243-254): path-based target attenuation is the
literal `true`, the expected root capability comes from `req.ezcap`. -/
def revocationDelegationPurposeArgs (ez : Ezcap) : CapabilityDelegationPurposeArgs :=
  { allowTargetAttenuation := true,
    expectedRootCapability := ez.expectedRootCapability }

/-- Embeds `_verifyDelegation` (lib/revoke.js 231-261) together with the
capture performed by `_captureChainControllers`: on success it returns the
delegator, the captured chain and the pushed chain controllers; when
verification fails the reported error is thrown. -/
def _verifyDelegation
    (loadDocument : String → Except JsError Capability)
    (oracles : DelegationOracles)
    (inspect : List Capability → InspectResult)
    (ez : Ezcap) (capability : Capability) :
    Except JsError (String × List Capability × List String) :=
  let purpose := revocationDelegationPurposeArgs ez
  let res := jsigsVerifyDelegation loadDocument purpose oracles inspect capability
  if res.1.verified then
    let chain := (res.2).getD []
    .ok ((res.1.delegator).getD "", chain, capturedChainControllers chain)
  else
    .error ((res.1.error).getD (notVerifiedJsError "not verified"))

/-- The early-rejection error for submitted root capabilities
(lib/revoke.js 187-192). -/
def rootNotRevocableJsError : JsError :=
  { name := "NotAllowedError", message := "A root capability cannot be revoked.",
    httpStatusCode := some 400, cause := none }

/-- The wrapper error for any delegation verification failure
(lib/revoke.js 214-219); the underlying error becomes its cause. -/
def invalidDelegationJsError (cause : JsError) : JsError :=
  { name := "DataError", message := "The provided capability delegation is invalid.",
    httpStatusCode := some 400, cause := some cause.toBase }

/-- Embeds `createCheckRevocationMiddleware` (lib/revoke.js 179-229): the
submitted capability is the request body; a `urn:zcap:root:` id is
rejected outright before any verification; then the delegation is verified
through a root capability loader built on the given (revocation-checking)
root controller resolver, and any failure is wrapped as an
invalid-delegation error with HTTP status 400. -/
def createCheckRevocationMiddleware
    (documentLoader : String → Except JsError Capability)
    (getRootController : String → String → Except JsError ControllerVal)
    (oracles : DelegationOracles)
    (inspect : List Capability → InspectResult)
    (req : Request) (ez : Ezcap) : StageResult RevocationCtx :=
  match req.body with
  | none =>
    let e : JsError := { name := "TypeError",
                         message := "cannot read id of undefined",
                         httpStatusCode := none, cause := none }
    .fail e (handleErrorStatus e)
  | some capability =>
    if strStartsWith capability.id ZCAP_ROOT_URN then
      .fail rootNotRevocableJsError (handleErrorStatus rootNotRevocableJsError)
    else
      let loader := createRootCapabilityLoader documentLoader getRootController
      match _verifyDelegation loader oracles inspect ez capability with
      | .ok (delegator, chain, controllers) =>
        .proceed { delegator := delegator, capabilityChain := chain,
                   chainControllers := controllers }
      | .error e0 =>
        let e := invalidDelegationJsError e0
        .fail e (handleErrorStatus e)

/-! ## Invocation verification stage (`lib/authorize.js`) -/

/-- Identifies which key-to-verifier resolver is wired into the invocation
verification: the module-local resolver of `lib/authorize.js` (lines
307-314, built on `CryptoLD` with `Ed25519VerificationKey2020`), or a
host-supplied resolver function (identified abstractly). -/
inductive VerifierSource where
  | internalCryptoLd
  | host (id : Nat)
deriving DecidableEq

/-- The options object accepted by `authorizeZcapInvocationAfterParse`
(lib/authorize.js 247-256).  `getVerifier` models a key a caller may place
on the options object: it is NOT among the parameters the source function
destructures, so the embedded function never reads it. -/
structure AfterParseOptions where
  allowTargetAttenuation : Bool
  maxChainLength : Nat
  maxClockSkew : Nat
  maxDelegationTtl : Nat
  getVerifier : Option VerifierSource
deriving DecidableEq

/-- The argument record `authorizeZcapInvocationAfterParse` passes to the
external `verifyCapabilityInvocation` of `http-signature-zcap-verify`
(lib/authorize.js 266-286); opaque pass-through fields (suite, headers,
document loader, inspection hook) are elided. -/
structure VerifyCapabilityInvocationArgs where
  url : String
  method : String
  expectedHost : String
  getVerifier : VerifierSource
  expectedAction : String
  expectedTarget : JsVal
  expectedRootCapability : RootCapIds
  keyId : String
  allowTargetAttenuation : Bool
  maxChainLength : Nat
  maxClockSkew : Nat
  maxDelegationTtl : Nat
deriving DecidableEq

/-- Builds the `verifyCapabilityInvocation` arguments exactly as
`authorizeZcapInvocationAfterParse` does (lib/authorize.js 257-286): the
`getVerifier` entry is the module-local resolver of lines 307-314; the
options' `getVerifier`, not being a destructured parameter, is ignored. -/
def mkVerifyCapabilityInvocationArgs (opts : AfterParseOptions)
    (req : Request) (ez : Ezcap) : VerifyCapabilityInvocationArgs :=
  { url := req.originalUrl, method := req.method, expectedHost := ez.expectedHost,
    getVerifier := VerifierSource.internalCryptoLd,
    expectedAction := ez.expectedAction, expectedTarget := ez.expectedTarget,
    expectedRootCapability := ez.expectedRootCapability, keyId := ez.keyId,
    allowTargetAttenuation := opts.allowTargetAttenuation,
    maxChainLength := opts.maxChainLength, maxClockSkew := opts.maxClockSkew,
    maxDelegationTtl := opts.maxDelegationTtl }

/-- Result of the external `verifyCapabilityInvocation`. -/
structure InvocationVerifyResult where
  verified : Bool
  error : Option JsError
deriving DecidableEq

/-- Fallback error surfaced on an unverified invocation. -/
def forbiddenJsError : JsError :=
  { name := "NotAllowedError", message := "Forbidden", httpStatusCode := none, cause := none }

/-- Embeds `authorizeZcapInvocationAfterParse` (lib/authorize.js 247-305):
run the external invocation verification on the constructed arguments; on
failure the response status is set to 403 and then `handleError` may
override it with the error's own `httpStatusCode`; on success the result
is published as `req.zcap`. -/
def authorizeZcapInvocationAfterParse (opts : AfterParseOptions)
    (verifyCapabilityInvocation : VerifyCapabilityInvocationArgs → InvocationVerifyResult)
    (req : Request) (ez : Ezcap) : StageResult InvocationVerifyResult :=
  let result := verifyCapabilityInvocation (mkVerifyCapabilityInvocationArgs opts req ez)
  if result.verified then .proceed result
  else
    let e := (result.error).getD forbiddenJsError
    .fail e (e.httpStatusCode.getD 403)

/-- Outcome of a whole invocation pipeline. -/
inductive InvocationPipelineOutcome where
  | fail (error : JsError) (status : Nat)
  | ok (ez : Ezcap) (zcap : InvocationVerifyResult)
deriving DecidableEq

/-- Embeds `authorizeZcapInvocation` (lib/authorize.js 207-245): the
expectation middleware followed by the after-parse invocation
verification; a failed stage short-circuits the pipeline. -/
def authorizeZcapInvocation
    (getExpectedValues : Request → Except JsError GevReturn)
    (opts : AfterParseOptions)
    (parseSignatureHeader : Option String → Option SigParams)
    (verifyHeaderValue : Capability → String → Bool)
    (verifyCapabilityInvocation : VerifyCapabilityInvocationArgs → InvocationVerifyResult)
    (req : Request) : InvocationPipelineOutcome :=
  match createExpectationMiddleware parseSignatureHeader verifyHeaderValue
      getExpectedValues req with
  | .fail e s => .fail e s
  | .proceed (ez, newBody) =>
    match authorizeZcapInvocationAfterParse opts verifyCapabilityInvocation
        { req with body := newBody } ez with
    | .fail e s => .fail e s
    | .proceed zcap => .ok ez zcap

/-! ## Revocation pipeline assembly (`lib/revoke.js` 104-177) -/

/-- The options object accepted by `authorizeZcapRevocation`
(lib/revoke.js 104-107).  `allowTargetAttenuation` models a key a caller
may place on the options object: it is NOT among the parameters the source
function destructures, so it is never read.  The host `getVerifier` is
destructured and forwarded to the invocation stage. -/
structure RevocationOptions where
  documentLoader : String → Except JsError Capability
  expectedHost : String
  getRootController : Request → String → String → Except JsError ControllerVal
  getVerifier : VerifierSource
  inspectCapabilityChain : List Capability → InspectResult
  allowTargetAttenuation : Option Bool

/-- The after-parse options `authorizeZcapRevocation` passes to the
invocation stage (lib/revoke.js 170-175): target attenuation is the
literal `true`, the policy knobs keep the after-parse defaults of
`lib/authorize.js` (10, 300 s, 90 days in ms), and the host `getVerifier`
is placed on the options object. -/
def revocationAfterParseOptions (opts : RevocationOptions) : AfterParseOptions :=
  { allowTargetAttenuation := true, maxChainLength := 10, maxClockSkew := 300,
    maxDelegationTtl := 7776000000, getVerifier := some opts.getVerifier }

/-- The misconfiguration error of the opinionated route check
(lib/revoke.js 151-164). -/
def revocationRouteJsError : JsError :=
  { name := "Error",
    message := "Revocation middleware must be attached to a route ending in \"/revocations/:revocationId\".",
    httpStatusCode := some 500, cause := none }

/-- Outcome of the revocation pipeline: failure at some stage, or success
with the published `req.ezcap`, `req.zcapRevocation` and `req.zcap`. -/
inductive RevocationPipelineOutcome where
  | fail (error : JsError) (status : Nat)
  | ok (ez : Ezcap) (rev : RevocationCtx) (zcap : InvocationVerifyResult)
deriving DecidableEq

/-- Embeds `authorizeZcapRevocation` (lib/revoke.js 104-177): the
opinionated route check, the expectation middleware over the synthesized
`getExpectedValues`, the revocation check middleware whose root controller
resolver is `getRevocationRootController` (with `req.zcapRevocation` not
yet published), and finally `authorizeZcapInvocationAfterParse` with
target attenuation forced on. -/
def authorizeZcapRevocation
    (opts : RevocationOptions)
    (parseSignatureHeader : Option String → Option SigParams)
    (verifyHeaderValue : Capability → String → Bool)
    (oracles : DelegationOracles)
    (verifyCapabilityInvocation : VerifyCapabilityInvocationArgs → InvocationVerifyResult)
    (req : Request) : RevocationPipelineOutcome :=
  if !(jsIncludesSubstr req.originalUrl "/revocations/" &&
      jsTruthyOptStr req.revocationIdParam) then
    .fail revocationRouteJsError (handleErrorStatus revocationRouteJsError)
  else
    match createExpectationMiddleware parseSignatureHeader verifyHeaderValue
        (fun r => .ok (.obj (getExpectedValuesRevoke opts.expectedHost r))) req with
    | .fail e s => .fail e s
    | .proceed (ez, newBody) =>
      let req1 := { req with body := newBody }
      let revocationRootController := fun rootCapabilityId rootInvocationTarget =>
        getRevocationRootController opts.expectedHost opts.getRootController none req1
          rootCapabilityId rootInvocationTarget
      match createCheckRevocationMiddleware opts.documentLoader revocationRootController
          oracles opts.inspectCapabilityChain req1 ez with
      | .fail e s => .fail e s
      | .proceed ctx =>
        match authorizeZcapInvocationAfterParse (revocationAfterParseOptions opts)
            verifyCapabilityInvocation req1 ez with
        | .fail e s => .fail e s
        | .proceed zcap => .ok ez ctx zcap

/-! ## Shared helper lemmas -/

theorem strContainsChar_append (a b : String) (c : Char) :
    strContainsChar (a ++ b) c = (strContainsChar a c || strContainsChar b c) := by
  simp [strContainsChar, String.data_append, List.contains]

theorem _parseServiceObjectId_set_body (eh : String) (req : Request) (b : Option Capability) :
    _parseServiceObjectId eh { req with body := b } = _parseServiceObjectId eh req := rfl

theorem strContainsChar_serviceObjectId (eh : String) (req : Request) :
    strContainsChar (_parseServiceObjectId eh req) ':' = true := by
  have h1 : strContainsChar "https://" ':' = true := by decide
  unfold _parseServiceObjectId
  split <;> simp [strContainsChar_append, h1]

theorem foldl_append_controllers (l : List Capability) (acc : List String) :
    l.foldl (fun a c => a ++ _getCapabilityControllers c) acc
      = acc ++ l.flatMap _getCapabilityControllers := by
  induction l generalizing acc with
  | nil => simp
  | cons c t ih => simp [ih, List.append_assoc]

theorem capturedChainControllers_eq_flatMap (l : List Capability) :
    capturedChainControllers l = l.flatMap _getCapabilityControllers := by
  unfold capturedChainControllers
  simpa using foldl_append_controllers l []

theorem count_flatMap_controllers (l : List Capability) (s : String) :
    (l.flatMap _getCapabilityControllers).count s
      = (l.map (fun c => (_getCapabilityControllers c).count s)).sum := by
  induction l with
  | nil => simp
  | cons c t ih => simp [List.count_append, ih]

theorem _verifyDelegation_controllers
    (loadDocument : String → Except JsError Capability)
    (oracles : DelegationOracles) (inspect : List Capability → InspectResult)
    (ez : Ezcap) (capability : Capability)
    (d : String) (chain : List Capability) (ctrls : List String)
    (h : _verifyDelegation loadDocument oracles inspect ez capability
          = .ok (d, chain, ctrls)) :
    ctrls = capturedChainControllers chain := by
  simp only [_verifyDelegation] at h
  split at h
  · simp only [Except.ok.injEq, Prod.mk.injEq] at h
    obtain ⟨-, h2, h3⟩ := h
    rw [← h3, ← h2]
  · exact absurd h (by simp)

/-! ## Claims -/

/-- C7: the expected root capability identifier for a root invocation
target `t` is `urn:zcap:root:` + percent-encoding of `t`
(`expectedRootCapabilityIdBytes`), and the root capability loader applied
to that identifier percent-decodes the suffix back to exactly `t` and
synthesizes the capability with that id, invocation target `t` and the
controller obtained from `getRootController` — the decode-after-encode
round trip is the identity on the target. -/
theorem c7_root_capability_id_round_trip (t : List Nat)
    (getRootController : List Nat → List Nat → ControllerVal)
    (h : ∀ b ∈ t, b < 256) :
    getRootCapabilityBytes getRootController (expectedRootCapabilityIdBytes t) =
      some { id := expectedRootCapabilityIdBytes t, invocationTarget := t,
             controller := getRootController (expectedRootCapabilityIdBytes t) t } := by
  unfold getRootCapabilityBytes expectedRootCapabilityIdBytes
  rw [List.drop_left, decode_encodeURIComponentBytes t h]
  rfl

/-- Witness for C7 at a concrete target whose path needs
percent-encoding. -/
theorem c7_witness :
    (∀ b ∈ charsToNats "https://example.com/items/a b+c", b < 256)
    ∧ getRootCapabilityBytes (fun _ _ => ControllerVal.one "did:ex:admin")
        (expectedRootCapabilityIdBytes (charsToNats "https://example.com/items/a b+c")) =
      some { id := expectedRootCapabilityIdBytes (charsToNats "https://example.com/items/a b+c"),
             invocationTarget := charsToNats "https://example.com/items/a b+c",
             controller := ControllerVal.one "did:ex:admin" } :=
  ⟨by decide, c7_root_capability_id_round_trip _ _ (by decide)⟩

/-- C1: contrary to the claim, the invocation verification stage never
calls the host-supplied `getVerifier`: the argument record handed to the
external `verifyCapabilityInvocation` always carries the module-local
CryptoLD-based resolver of `lib/authorize.js` lines 307-314, even in the
revocation pipeline, which forwards the host resolver on the options
object only for it to be dropped by the destructuring of
`authorizeZcapInvocationAfterParse`. -/
theorem c1_host_getVerifier_ignored (opts : RevocationOptions) (req : Request) (ez : Ezcap) :
    (mkVerifyCapabilityInvocationArgs (revocationAfterParseOptions opts) req ez).getVerifier
        = VerifierSource.internalCryptoLd
    ∧ (revocationAfterParseOptions opts).getVerifier = some opts.getVerifier
    ∧ ∀ n : Nat,
        ((mkVerifyCapabilityInvocationArgs (revocationAfterParseOptions opts) req ez).getVerifier
          == VerifierSource.host n) = false :=
  ⟨rfl, rfl, fun _ => rfl⟩

/-- C10: hierarchical path-based target attenuation is unconditionally on
in the revocation pipeline, both in the `CapabilityDelegation` purpose
arguments of the delegation-chain verification and in the invocation
verification arguments, for every configuration of
`authorizeZcapRevocation` (including one that tries to pass
`allowTargetAttenuation: false`, which the source never reads). -/
theorem c10_target_attenuation_forced (opts : RevocationOptions) (req : Request) (ez : Ezcap) :
    (revocationDelegationPurposeArgs ez).allowTargetAttenuation = true
    ∧ (revocationAfterParseOptions opts).allowTargetAttenuation = true
    ∧ (mkVerifyCapabilityInvocationArgs (revocationAfterParseOptions opts) req ez).allowTargetAttenuation
        = true :=
  ⟨rfl, rfl, rfl⟩

/-- Expected-values object with a supplied `target` that is a string but
not an absolute URI (no colon), exercising the broken check of
lib/helpers.js lines 217-222. -/
def c8Expected : ExpectedJs :=
  { action := .undef, host := .str "localhost:9000",
    rootInvocationTarget := .str "https://localhost:9000/documents",
    target := .str "not-an-absolute-uri" }

/-- Request used to drive the expectation stage for C8. -/
def c8Req : Request :=
  { method := "GET", originalUrl := "/documents", authorization := some "sig",
    digest := none, contentLength := none, transferEncoding := none,
    contentType := none, body := none, revocationIdParam := none }

/-- C8: contrary to the claim (and to the error message in the source),
the expectation stage accepts a supplied `target` that is a string without
a colon: the condition `target !== undefined && !(typeof target ===
'string') && target.includes(':')` on lib/helpers.js 217-218 is false for
every string, so `_checkExpectedValues` succeeds and the middleware
proceeds with the non-URI expected target. -/
theorem c8_target_check_accepts_non_uri_string :
    _checkExpectedValues (.obj c8Expected) = .ok c8Expected
    ∧ strContainsChar "not-an-absolute-uri" ':' = false
    ∧ createExpectationMiddleware (fun _ => some { keyId := "k" }) (fun _ _ => true)
        (fun _ => .ok (.obj c8Expected)) c8Req
      = .proceed
          ({ keyId := "k", expectedAction := "read", expectedHost := "localhost:9000",
             expectedRootCapability :=
               .one "urn:zcap:root:https%3A%2F%2Flocalhost%3A9000%2Fdocuments",
             expectedTarget := .str "not-an-absolute-uri" }, none) :=
  ⟨rfl, by decide, rfl⟩

/-- Request driving the revocation expectation stage for the C2
counterexample. -/
def c2Req : Request :=
  { method := "POST", originalUrl := "/service-objects/123/zcaps/revocations/z1",
    authorization := some "sig", digest := none, contentLength := none,
    transferEncoding := none, contentType := none, body := none,
    revocationIdParam := some "z1" }

/-- C2 counterexample: the object returned by the synthesized
`getExpectedValues` of the revocation pipeline has NO `action` property
(it is `undefined`), so it does not equal `"write"` as the claim states;
the `write` action only arises later from the HTTP-method default. -/
theorem c2_counterexample :
    (getExpectedValuesRevoke "localhost:9000" c2Req).action = JsVal.undef
    ∧ decide ((getExpectedValuesRevoke "localhost:9000" c2Req).action
        = JsVal.str "write") = false :=
  ⟨rfl, rfl⟩

/-- C2 (amended): the synthesized `getExpectedValues` returns host
`expectedHost` and the two-element root invocation target list
`[serviceObjectId, serviceObjectId + "/revocations/" +
percentEncode(revocationId)]`, but no `action`; for a POST request the
expectation middleware then defaults the expected action to `"write"` via
the HTTP-method table. -/
theorem c2_amended (expectedHost : String) (req : Request) (sp : SigParams)
    (parseSig : Option String → Option SigParams) (vh : Capability → String → Bool)
    (hauth : parseSig req.authorization = some sp)
    (hbody : req.body = none)
    (hmethod : req.method = "POST") :
    getExpectedValuesRevoke expectedHost req =
      { action := .undef, host := .str expectedHost,
        rootInvocationTarget := .arr
          [_parseServiceObjectId expectedHost req,
           _parseServiceObjectId expectedHost req ++ "/revocations/"
             ++ encodeURIComponent (revocationIdOf req)],
        target := .undef }
    ∧ createExpectationMiddleware parseSig vh
        (fun r => .ok (.obj (getExpectedValuesRevoke expectedHost r))) req
      = .proceed
          ({ keyId := sp.keyId, expectedAction := "write", expectedHost := expectedHost,
             expectedRootCapability := .many
               [ZCAP_ROOT_URN ++ encodeURIComponent (_parseServiceObjectId expectedHost req),
                ZCAP_ROOT_URN ++ encodeURIComponent (_parseServiceObjectId expectedHost req
                  ++ "/revocations/" ++ encodeURIComponent (revocationIdOf req))],
             expectedTarget := .str ("https://" ++ expectedHost ++ req.originalUrl) },
           none) := by
  refine ⟨rfl, ?_⟩
  have hroot : _checkExpectedRootInvocationTarget
      (JsVal.arr
        [_parseServiceObjectId expectedHost req,
         _parseServiceObjectId expectedHost req ++ "/revocations/"
           ++ encodeURIComponent (revocationIdOf req)]) = true := by
    simp [_checkExpectedRootInvocationTarget, strContainsChar_append,
      strContainsChar_serviceObjectId]
  have hpost : mapGet DEFAULT_ACTION_FOR_METHOD "POST" = some "write" := by decide
  simp only [createExpectationMiddleware, hauth, hasBody, hbody, Option.isSome_none,
    Bool.false_and, Bool.if_false_left, Bool.and_eq_true]
  simp only [Except.bind, _checkExpectedValues, getExpectedValuesRevoke, hroot]
  simp [hmethod, hpost, jsValAsString, JsVal.isString, pure, Except.pure, bind, Except.bind]

/-- Witness for C2 (amended) at a concrete POST revocation request. -/
theorem c2_witness :
    createExpectationMiddleware (fun _ => some { keyId := "k2" }) (fun _ _ => true)
      (fun r => .ok (.obj (getExpectedValuesRevoke "localhost:9000" r))) c2Req
    = .proceed
        ({ keyId := "k2", expectedAction := "write", expectedHost := "localhost:9000",
           expectedRootCapability := .many
             [ZCAP_ROOT_URN ++ encodeURIComponent (_parseServiceObjectId "localhost:9000" c2Req),
              ZCAP_ROOT_URN ++ encodeURIComponent (_parseServiceObjectId "localhost:9000" c2Req
                ++ "/revocations/" ++ encodeURIComponent (revocationIdOf c2Req))],
           expectedTarget := .str ("https://" ++ "localhost:9000" ++ c2Req.originalUrl) },
         none) :=
  (c2_amended "localhost:9000" c2Req { keyId := "k2" }
    (fun _ => some { keyId := "k2" }) (fun _ _ => true) rfl rfl rfl).2

/-! ### Concrete revocation fixtures (used by several witnesses and
counterexamples) -/

/-- Root capability of the concrete service object
`https://h/objs/1`. -/
def cxRootCap : Capability :=
  createRootCapability (ControllerVal.one "did:ex:a") "https://h/objs/1"

/-- Concrete delegated capability to be revoked; its chain is rooted in
the service object root. -/
def cxCap : Capability :=
  { id := "urn:uuid:cap1", invocationTarget := "https://h/objs/1",
    controller := ControllerVal.one "did:ex:a",
    chainRootId := some "urn:zcap:root:https%3A%2F%2Fh%2Fobjs%2F1" }

/-- Concrete revocation request carrying `cxCap` as its body. -/
def cxReq : Request :=
  { method := "POST", originalUrl := "/objs/1/revocations/z1",
    authorization := some "sig", digest := some "d", contentLength := some "10",
    transferEncoding := none, contentType := some "application/json",
    body := some cxCap, revocationIdParam := some "z1" }

/-- Concrete signature-header parser oracle. -/
def cxParse : Option String → Option SigParams :=
  fun _ => some { keyId := "did:key:z#k" }

/-- Concrete digest verifier oracle (body always matches). -/
def cxVh : Capability → String → Bool := fun _ _ => true

/-- Concrete delegation oracles: proofs verify, no intermediate zcaps. -/
def cxOracles : DelegationOracles :=
  { cryptoOk := true, derefParents := [], delegator := "did:ex:a" }

/-- Concrete inspection hook (accepts every chain). -/
def cxInspect : List Capability → InspectResult :=
  fun _ => { valid := true, error := none }

/-- Concrete invocation verification oracle (accepts). -/
def cxVci : VerifyCapabilityInvocationArgs → InvocationVerifyResult :=
  fun _ => { verified := true, error := none }

/-- Concrete revocation pipeline options over host `h`. -/
def cxOpts : RevocationOptions :=
  { documentLoader := fun _ => .error (notVerifiedJsError "no such document"),
    expectedHost := "h",
    getRootController := fun _ _ _ => .ok (ControllerVal.one "did:ex:a"),
    getVerifier := VerifierSource.host 7,
    inspectCapabilityChain := cxInspect,
    allowTargetAttenuation := some false }

/-- The `req.ezcap` state the expectation stage computes for `cxReq`. -/
def cxEz : Ezcap :=
  { keyId := "did:key:z#k", expectedAction := "write", expectedHost := "h",
    expectedRootCapability := .many
      ["urn:zcap:root:https%3A%2F%2Fh%2Fobjs%2F1",
       "urn:zcap:root:https%3A%2F%2Fh%2Fobjs%2F1%2Frevocations%2Fz1"],
    expectedTarget := .str "https://h/objs/1/revocations/z1" }

/-- First-occurrence deduplication, stated from the claim wording (each
controller exactly once, at the position of its first appearance); used
only to compare the claimed value with the code behaviour. -/
def dedupKeepFirst (l : List String) : List String :=
  l.foldl (fun acc s => if acc.contains s then acc else acc ++ [s]) []

/-- C3 counterexample: a successfully verified revocation whose chain
lists the controller `did:ex:a` under both the root capability and the
revoked capability publishes `chainControllers` with that controller
TWICE; the deduplicated collection the claim describes would list it
once. -/
theorem c3_counterexample :
    authorizeZcapRevocation cxOpts cxParse cxVh cxOracles cxVci cxReq
      = .ok cxEz
          { delegator := "did:ex:a",
            capabilityChain := [cxRootCap, cxCap],
            chainControllers := ["did:ex:a", "did:ex:a"] }
          { verified := true, error := none }
    ∧ dedupKeepFirst ([cxRootCap, cxCap].flatMap _getCapabilityControllers)
        = ["did:ex:a"]
    ∧ decide ((["did:ex:a", "did:ex:a"] : List String)
        = dedupKeepFirst ([cxRootCap, cxCap].flatMap _getCapabilityControllers)) = false := by
  refine ⟨by decide, by decide, by decide⟩

/-- C3 (amended): the `chainControllers` collection published to the
request is the concatenation of every chain capability's controllers in
chain order with duplicates retained: its value is
`chain.flatMap _getCapabilityControllers` and every controller occurs as
many times as it appears across the chain. -/
theorem c3_amended
    (documentLoader : String → Except JsError Capability)
    (getRootController : String → String → Except JsError ControllerVal)
    (oracles : DelegationOracles) (inspect : List Capability → InspectResult)
    (req : Request) (ez : Ezcap) :
    (∀ chain : List Capability,
        capturedChainControllers chain = chain.flatMap _getCapabilityControllers)
    ∧ (∀ (chain : List Capability) (s : String),
        (capturedChainControllers chain).count s
          = (chain.map (fun c => (_getCapabilityControllers c).count s)).sum)
    ∧ ∀ ctx : RevocationCtx,
        createCheckRevocationMiddleware documentLoader getRootController oracles
            inspect req ez = .proceed ctx →
        ctx.chainControllers = ctx.capabilityChain.flatMap _getCapabilityControllers := by
  refine ⟨capturedChainControllers_eq_flatMap, ?_, ?_⟩
  · intro chain s
    rw [capturedChainControllers_eq_flatMap]
    exact count_flatMap_controllers chain s
  · intro ctx h
    simp only [createCheckRevocationMiddleware] at h
    split at h
    · exact absurd h (by simp)
    · split at h
      · exact absurd h (by simp)
      · split at h
        · next d chain ctrls heq =>
            simp only [StageResult.proceed.injEq] at h
            subst h
            simpa [capturedChainControllers_eq_flatMap] using
              _verifyDelegation_controllers _ _ _ _ _ _ _ _ heq
        · exact absurd h (by simp)

/-- Witness for C3 (amended), applying it at the concrete fixture chain
and at a concrete middleware run that proceeds. -/
theorem c3_witness :
    capturedChainControllers [cxRootCap, cxCap]
      = [cxRootCap, cxCap].flatMap _getCapabilityControllers
    ∧ (RevocationCtx.mk "did:ex:a" [cxRootCap, cxCap] ["did:ex:a", "did:ex:a"]).chainControllers
        = (RevocationCtx.mk "did:ex:a" [cxRootCap, cxCap]
            ["did:ex:a", "did:ex:a"]).capabilityChain.flatMap _getCapabilityControllers :=
  ⟨(c3_amended cxOpts.documentLoader (fun _ _ => .ok (ControllerVal.one "did:ex:a"))
      cxOracles cxInspect cxReq cxEz).1 [cxRootCap, cxCap],
   (c3_amended cxOpts.documentLoader (fun _ _ => .ok (ControllerVal.one "did:ex:a"))
      cxOracles cxInspect cxReq cxEz).2.2
     (RevocationCtx.mk "did:ex:a" [cxRootCap, cxCap] ["did:ex:a", "did:ex:a"])
     (by decide)⟩

/-! ### C4 -/

/-- Well-formed expected values for the C4 counterexample. -/
def c4Gev : Request → Except JsError GevReturn :=
  fun _ =>
    .ok (.obj
      { action := .undef, host := .str "localhost",
        rootInvocationTarget := .str "https://localhost/documents", target := .undef })

/-- After-parse options for the C4 counterexample. -/
def c4Opts : AfterParseOptions :=
  { allowTargetAttenuation := true, maxChainLength := 10, maxClockSkew := 300,
    maxDelegationTtl := 7776000000, getVerifier := none }

/-- Signature parser oracle that only parses the literal header `sig`. -/
def c4Parse : Option String → Option SigParams :=
  fun a => match a with
    | some "sig" => some { keyId := "k" }
    | _ => none

/-- Request with a `content-length` header and no `digest` header, but no
parsed body. -/
def c4ReqNoBody : Request :=
  { method := "POST", originalUrl := "/documents", authorization := some "sig",
    digest := none, contentLength := some "12", transferEncoding := none,
    contentType := some "application/json", body := none, revocationIdParam := none }

/-- The same request with a parsed body but an unparseable authorization
header. -/
def c4ReqBadAuth : Request :=
  { c4ReqNoBody with
    authorization := none,
    body := some
      { id := "urn:uuid:c4", invocationTarget := "https://localhost/documents",
        controller := ControllerVal.one "did:ex:b", chainRootId := none } }

/-- C4 counterexample: a request carrying a `content-length` header and no
`digest` header does NOT fail with the missing-digest outcome when the
parsed body is absent (the stage proceeds); and when the authorization
header does not parse, the stage fails with the authorization error, not
the missing-digest one — so the claim, quantified over every request with
those headers, is false. -/
theorem c4_counterexample :
    decide (authorizeZcapInvocation c4Gev c4Opts c4Parse (fun _ _ => true)
        (fun _ => { verified := true, error := none }) c4ReqNoBody
      = .fail missingDigestJsError 400) = false
    ∧ c4ReqNoBody.contentLength.isSome = true
    ∧ c4ReqNoBody.digest = none
    ∧ c4ReqBadAuth.contentLength.isSome = true
    ∧ c4ReqBadAuth.digest = none
    ∧ c4ReqBadAuth.body.isSome = true
    ∧ authorizeZcapInvocation c4Gev c4Opts c4Parse (fun _ _ => true)
        (fun _ => { verified := true, error := none }) c4ReqBadAuth
      = .fail invalidAuthorizationJsError 400 := by
  refine ⟨by decide, rfl, rfl, rfl, rfl, rfl, by decide⟩

/-- C4 (amended): for every request whose authorization header parses and
whose parsed body is present, carrying a `content-length` or
`transfer-encoding` header but no `digest` header, the expectation stage
fails with the missing-digest outcome (400, `DataError`, the source
message) and the invocation verification never runs; a `content-type`
header alone never makes `hasBody` true, so it does not trigger the
requirement. -/
theorem c4_amended
    (getExpectedValues : Request → Except JsError GevReturn)
    (opts : AfterParseOptions)
    (parseSig : Option String → Option SigParams) (vh : Capability → String → Bool)
    (vci : VerifyCapabilityInvocationArgs → InvocationVerifyResult)
    (req : Request) (sp : SigParams)
    (hauth : parseSig req.authorization = some sp)
    (hbody : req.body.isSome = true)
    (hhdr : (req.transferEncoding.isSome || req.contentLength.isSome) = true)
    (hdig : req.digest = none) :
    authorizeZcapInvocation getExpectedValues opts parseSig vh vci req
      = .fail missingDigestJsError 400
    ∧ missingDigestJsError.httpStatusCode = some 400
    ∧ missingDigestJsError.name = "DataError"
    ∧ ∀ r2 : Request, r2.contentLength = none → r2.transferEncoding = none →
        hasBody r2 = false := by
  refine ⟨?_, rfl, rfl, ?_⟩
  · simp only [authorizeZcapInvocation, createExpectationMiddleware, hauth, hasBody,
      hbody, hhdr, Bool.and_self, hdig, if_true]
    simp [handleErrorStatus, missingDigestJsError]
  · intro r2 h1 h2
    simp [hasBody, h1, h2]

/-- Witness for C4 (amended) at a concrete request with a parsed body,
a `content-length` header and no digest. -/
def c4WithBodyReq : Request :=
  { c4ReqNoBody with
    body := some
      { id := "urn:uuid:c4w", invocationTarget := "https://localhost/documents",
        controller := ControllerVal.one "did:ex:b", chainRootId := none } }

theorem c4_witness :
    authorizeZcapInvocation c4Gev c4Opts c4Parse (fun _ _ => true)
      (fun _ => { verified := true, error := none }) c4WithBodyReq
      = .fail missingDigestJsError 400 :=
  (c4_amended c4Gev c4Opts c4Parse (fun _ _ => true)
    (fun _ => { verified := true, error := none }) c4WithBodyReq { keyId := "k" }
    (by decide) (by decide) (by decide) (by decide)).1

/-! ### C9 -/

/-- Projection of the expectation-stage outcome onto the saved expected
action. -/
def stageExpectedAction : StageResult (Ezcap × Option Capability) → Option String
  | .proceed (ez, _) => some ez.expectedAction
  | .fail _ _ => none

theorem mapGet_default_none (m : String)
    (h : m ∉ (["GET", "HEAD", "OPTIONS", "POST", "PUT", "PATCH", "DELETE",
      "CONNECT", "TRACE"] : List String)) :
    mapGet DEFAULT_ACTION_FOR_METHOD m = none := by
  simp only [List.mem_cons, List.not_mem_nil, or_false, not_or] at h
  obtain ⟨h1, h2, h3, h4, h5, h6, h7, h8, h9⟩ := h
  simp [mapGet, DEFAULT_ACTION_FOR_METHOD, beq_iff_eq,
    Ne.symm h1, Ne.symm h2, Ne.symm h3, Ne.symm h4, Ne.symm h5, Ne.symm h6,
    Ne.symm h7, Ne.symm h8, Ne.symm h9]

/-- C9: when the expected values carry no action, the expected action is
chosen from the HTTP method by the fixed table `GET|HEAD|OPTIONS → read`,
`POST|PUT|PATCH|DELETE|CONNECT|TRACE → write`; a method outside the table
makes the stage fail with the unsupported-method outcome (HTTP 400) and
the invocation verification never runs. -/
theorem c9_default_action_table
    (getExpectedValues : Request → Except JsError GevReturn)
    (parseSig : Option String → Option SigParams) (vh : Capability → String → Bool)
    (req : Request) (sp : SigParams) (e : ExpectedJs) (h : String)
    (hauth : parseSig req.authorization = some sp)
    (hbody : req.body = none)
    (hgev : getExpectedValues req = .ok (.obj e))
    (haction : e.action = .undef)
    (hhost : e.host = .str h)
    (hroot : _checkExpectedRootInvocationTarget e.rootInvocationTarget = true)
    (htarget : e.target = .undef) :
    (∀ a, mapGet DEFAULT_ACTION_FOR_METHOD req.method = some a →
        stageExpectedAction (createExpectationMiddleware parseSig vh getExpectedValues req)
          = some a)
    ∧ (mapGet DEFAULT_ACTION_FOR_METHOD req.method = none →
        ∀ (opts : AfterParseOptions)
          (vci : VerifyCapabilityInvocationArgs → InvocationVerifyResult),
          authorizeZcapInvocation getExpectedValues opts parseSig vh vci req
            = .fail (unsupportedMethodJsError req.method) 400)
    ∧ mapGet DEFAULT_ACTION_FOR_METHOD "GET" = some "read"
    ∧ mapGet DEFAULT_ACTION_FOR_METHOD "HEAD" = some "read"
    ∧ mapGet DEFAULT_ACTION_FOR_METHOD "OPTIONS" = some "read"
    ∧ mapGet DEFAULT_ACTION_FOR_METHOD "POST" = some "write"
    ∧ mapGet DEFAULT_ACTION_FOR_METHOD "PUT" = some "write"
    ∧ mapGet DEFAULT_ACTION_FOR_METHOD "PATCH" = some "write"
    ∧ mapGet DEFAULT_ACTION_FOR_METHOD "DELETE" = some "write"
    ∧ mapGet DEFAULT_ACTION_FOR_METHOD "CONNECT" = some "write"
    ∧ mapGet DEFAULT_ACTION_FOR_METHOD "TRACE" = some "write"
    ∧ ∀ m : String, m ∉ (["GET", "HEAD", "OPTIONS", "POST", "PUT", "PATCH",
        "DELETE", "CONNECT", "TRACE"] : List String) →
        mapGet DEFAULT_ACTION_FOR_METHOD m = none := by
  refine ⟨?_, ?_, by decide, by decide, by decide, by decide, by decide, by decide,
    by decide, by decide, by decide, mapGet_default_none⟩
  · intro a ha
    simp only [createExpectationMiddleware, hauth, hasBody, hbody, Option.isSome_none,
      Bool.false_and, Bool.if_false_left, Bool.and_eq_true]
    simp only [Except.bind, hgev, _checkExpectedValues, haction, hhost, hroot, htarget]
    simp [stageExpectedAction, ha, haction, hhost, hroot, htarget, jsValAsString,
      JsVal.isString, pure, Except.pure, bind, Except.bind]
  · intro hnone opts vci
    simp only [authorizeZcapInvocation, createExpectationMiddleware, hauth, hasBody,
      hbody, Option.isSome_none, Bool.false_and, Bool.if_false_left, Bool.and_eq_true]
    simp only [Except.bind, hgev, _checkExpectedValues, haction, hhost, hroot, htarget]
    simp [hnone, haction, hhost, hroot, htarget, jsValAsString, JsVal.isString, pure,
      Except.pure, bind, Except.bind, handleErrorStatus, unsupportedMethodJsError]

/-- Witness for C9 at a concrete POST request (table hit) and a concrete
`BREW` request (outside the table). -/
theorem c9_witness :
    stageExpectedAction (createExpectationMiddleware c4Parse (fun _ _ => true)
        c4Gev c4ReqNoBody) = some "write"
    ∧ authorizeZcapInvocation c4Gev c4Opts c4Parse (fun _ _ => true)
        (fun _ => { verified := true, error := none })
        { c4ReqNoBody with method := "BREW" }
      = .fail (unsupportedMethodJsError "BREW") 400 :=
  ⟨(c9_default_action_table c4Gev c4Parse (fun _ _ => true) c4ReqNoBody
      { keyId := "k" } _ "localhost" rfl rfl rfl rfl rfl (by decide) rfl).1
      "write" (by decide),
   (c9_default_action_table c4Gev c4Parse (fun _ _ => true)
      { c4ReqNoBody with method := "BREW" }
      { keyId := "k" } _ "localhost" rfl rfl rfl rfl rfl (by decide) rfl).2.1
      (by decide) c4Opts (fun _ => { verified := true, error := none })⟩

/-! ### C6 -/

/-- C6: a submitted capability whose id starts with `urn:zcap:root:` makes
the revocation pipeline reject with HTTP 400, error name
`NotAllowedError` and message `A root capability cannot be revoked.` —
and it does so before any chain or signature verification: the outcome is
the same for every delegation oracle, inspection hook and invocation
verifier. -/
theorem c6_root_not_revocable
    (opts : RevocationOptions)
    (parseSig : Option String → Option SigParams) (vh : Capability → String → Bool)
    (oracles : DelegationOracles)
    (vci : VerifyCapabilityInvocationArgs → InvocationVerifyResult)
    (req : Request) (ez : Ezcap) (cap : Capability)
    (hroute : (jsIncludesSubstr req.originalUrl "/revocations/" &&
        jsTruthyOptStr req.revocationIdParam) = true)
    (hstage : createExpectationMiddleware parseSig vh
        (fun r => .ok (.obj (getExpectedValuesRevoke opts.expectedHost r))) req
      = .proceed (ez, some cap))
    (hid : strStartsWith cap.id ZCAP_ROOT_URN = true) :
    authorizeZcapRevocation opts parseSig vh oracles vci req
      = .fail rootNotRevocableJsError 400 := by
  simp only [authorizeZcapRevocation, hroute, Bool.not_true, Bool.false_eq_true,
    if_false, hstage, createCheckRevocationMiddleware, hid, if_true]
  rfl

/-- Capability with a root id, used by the C6 witness. -/
def c6Cap : Capability :=
  { id := "urn:zcap:root:xyz", invocationTarget := "https://h/objs/1",
    controller := ControllerVal.one "did:ex:a", chainRootId := none }

/-- The concrete revocation request submitting `c6Cap`. -/
def c6Req : Request := { cxReq with body := some c6Cap }

/-- Witness for C6 at the concrete fixtures. -/
theorem c6_witness :
    authorizeZcapRevocation cxOpts cxParse cxVh cxOracles cxVci c6Req
      = .fail rootNotRevocableJsError 400 :=
  c6_root_not_revocable cxOpts cxParse cxVh cxOracles cxVci c6Req cxEz c6Cap
    (by decide) (by decide) (by decide)

/-! ### C5 -/

/-- Capability whose delegation chain is rooted in an unrelated service
object. -/
def c5Cap : Capability :=
  { id := "urn:uuid:cap-other", invocationTarget := "https://other.example/x",
    controller := ControllerVal.one "did:ex:a",
    chainRootId := some ("urn:zcap:root:" ++ encodeURIComponent "https://other.example/x") }

/-- The concrete revocation request submitting `c5Cap`. -/
def c5Req : Request := { cxReq with body := some c5Cap }

/-- C5 counterexample: a revocation whose submitted chain has an unrelated
root invocation target fails — but the HTTP status surfaced is 400 with
the invalid-delegation wrapper (`DataError`), not 403 as the claim
states: the 403 `NotAllowedError` raised by `getRevocationRootController`
survives only as the wrapper's cause, because `createCheckRevocationMiddleware`
wraps every delegation-verification failure. -/
theorem c5_counterexample :
    authorizeZcapRevocation cxOpts cxParse cxVh cxOracles cxVci c5Req
      = .fail (invalidDelegationJsError
          (unrelatedServiceObjectJsError "https://h/objs/1")) 400
    ∧ (invalidDelegationJsError
        (unrelatedServiceObjectJsError "https://h/objs/1")).httpStatusCode = some 400
    ∧ decide ((400 : Nat) = 403) = false
    ∧ (invalidDelegationJsError
        (unrelatedServiceObjectJsError "https://h/objs/1")).cause.map
          JsErrorBase.httpStatusCode = some (some 403) := by
  refine ⟨by decide, rfl, rfl, rfl⟩

/-- C5 (amended): for every revocation whose submitted chain root
invocation target neither equals the service object id nor extends it as a
path (and which otherwise reaches delegation verification), the stage
fails with the invalid-delegation outcome: HTTP 400, `DataError`,
`The provided capability delegation is invalid.`, whose cause is the 403
`NotAllowedError` from `getRevocationRootController`; no revocation
context is published (the pipeline short-circuits on failure). -/
theorem c5_unrelated_service_object
    (opts : RevocationOptions)
    (parseSig : Option String → Option SigParams) (vh : Capability → String → Bool)
    (oracles : DelegationOracles)
    (vci : VerifyCapabilityInvocationArgs → InvocationVerifyResult)
    (req : Request) (ez : Ezcap) (cap : Capability) (rootId t : String)
    (hroute : (jsIncludesSubstr req.originalUrl "/revocations/" &&
        jsTruthyOptStr req.revocationIdParam) = true)
    (hstage : createExpectationMiddleware parseSig vh
        (fun r => .ok (.obj (getExpectedValuesRevoke opts.expectedHost r))) req
      = .proceed (ez, some cap))
    (hnotroot : strStartsWith cap.id ZCAP_ROOT_URN = false)
    (hchain : cap.chainRootId = some rootId)
    (hrootpfx : strStartsWith rootId ZCAP_ROOT_URN = true)
    (hdec : decodeURIComponentStr (strDrop rootId ZCAP_ROOT_URN.length) = some t)
    (hne : ¬ t = _parseServiceObjectId opts.expectedHost req)
    (hnp : strStartsWith t (_parseServiceObjectId opts.expectedHost req ++ "/") = false) :
    authorizeZcapRevocation opts parseSig vh oracles vci req
      = .fail (invalidDelegationJsError
          (unrelatedServiceObjectJsError (_parseServiceObjectId opts.expectedHost req))) 400
    ∧ (unrelatedServiceObjectJsError
        (_parseServiceObjectId opts.expectedHost req)).httpStatusCode = some 403
    ∧ (invalidDelegationJsError
        (unrelatedServiceObjectJsError
          (_parseServiceObjectId opts.expectedHost req))).httpStatusCode = some 400 := by
  refine ⟨?_, rfl, rfl⟩
  simp only [authorizeZcapRevocation, hroute, Bool.not_true, Bool.false_eq_true,
    if_false, hstage, createCheckRevocationMiddleware, hnotroot, Bool.true_eq_false,
    if_true]
  simp only [_verifyDelegation, jsigsVerifyDelegation, hchain,
    createRootCapabilityLoader, hrootpfx, if_true, getRootCapabilityStr, hdec,
    getRevocationRootController, _parseServiceObjectId_set_body, hne, hnp,
    Bool.false_eq_true, or_self, if_false]
  simp [handleErrorStatus, invalidDelegationJsError, bind, Except.bind]

/-- Witness for C5 (amended) at the concrete unrelated-chain fixtures. -/
theorem c5_witness :
    authorizeZcapRevocation cxOpts cxParse cxVh cxOracles cxVci c5Req
      = .fail (invalidDelegationJsError
          (unrelatedServiceObjectJsError
            (_parseServiceObjectId cxOpts.expectedHost c5Req))) 400 :=
  (c5_unrelated_service_object cxOpts cxParse cxVh cxOracles cxVci c5Req cxEz c5Cap
    "urn:zcap:root:https%3A%2F%2Fother.example%2Fx" "https://other.example/x"
    (by decide) (by decide) (by decide) (by decide) (by decide) (by decide)
    (by decide) (by decide)).1

end EzcapExpress
